import Mathlib

/-!
# Agenda: recurring-event expansion and notification scheduling

A shallow embedding of the core of the `agenda` application:

* `expandRecurringEvents` (src/components/CalendarView.tsx) — the occurrence
  expander that turns event definitions with repeat rules into concrete
  date-stamped occurrences for a viewing window;
* `checkEventsForNotifications` (src/sw.js) — the per-tick due-alert scan of
  the service worker, together with its `SYNC_EVENTS` message handler and the
  `notificationclick` snooze handler.

Modelling conventions:

* A JavaScript `Date` value is its millisecond time value (an `Int`); the
  application runs on local wall-clock time with no DST modelled, so the civil
  decomposition follows ECMAScript `MakeDay` / proleptic Gregorian arithmetic
  (`dayFromCivil` / `civilFromDay`, the standard era-based algorithms).
* The expander only ever manipulates dates at local midnight (anchors are
  parsed as `date + 'T00:00:00'`, and the callers pass `viewStart` at
  00:00:00.000 and `viewEnd` at 23:59:59.999 of the last day), so the expander
  is embedded at day granularity: a midnight `Date` is its epoch-day number,
  and the window is the inclusive day interval `[viewStart, viewEnd]`.
* String fields that the code parses are represented by their parse result:
  `AppEvent.date : Option Int` is the epoch-day number of the ISO `YYYY-MM-DD`
  anchor (`none` when the string is unparsable — `new Date(bad)` is an Invalid
  Date, and every comparison against `NaN` is `false`), and
  `AppEvent.startTime : Option Int` is the `HH:mm` time as minutes after
  midnight (`none` when missing or unparsable, in which case
  `new Date(date + 'T' + startTime)` is also invalid).
-/

namespace Agenda

/-- Milliseconds per day. -/
def msPerDay : Int := 86400000

/-- Milliseconds per minute. -/
def msPerMinute : Int := 60000

/-- Milliseconds per hour. -/
def msPerHour : Int := 3600000

/-- Epoch-day number of a civil date (proleptic Gregorian, day 0 =
1970-01-01), for any year and any day-of-month offset, month in `1..12`.
This is the era-based `days_from_civil` computation that ECMAScript `MakeDay`
amounts to; it is linear in `d`, which is exactly the engine's day-of-month
overflow behaviour (`MakeDay(y, m, d) = Day(y, m, 1) + (d - 1)`). -/
def dayFromCivil (y m d : Int) : Int :=
  let yAdj : Int := if m ≤ 2 then y - 1 else y
  let era : Int := Int.fdiv yAdj 400
  let yoe : Int := yAdj - era * 400
  let mp : Int := Int.emod (m + 9) 12
  let doy : Int := Int.fdiv (153 * mp + 2) 5 + d - 1
  let doe : Int := yoe * 365 + Int.fdiv yoe 4 - Int.fdiv yoe 100 + doy
  era * 146097 + doe - 719468

/-- Civil date `(year, month, day)` of an epoch-day number (inverse of
`dayFromCivil` on valid dates); the era-based `civil_from_days` computation. -/
def civilFromDay (z : Int) : Int × Int × Int :=
  let z' : Int := z + 719468
  let era : Int := Int.fdiv z' 146097
  let doe : Int := z' - era * 146097
  let yoe : Int :=
    Int.fdiv (doe - Int.fdiv doe 1460 + Int.fdiv doe 36524 - Int.fdiv doe 146096) 365
  let y : Int := yoe + era * 400
  let doy : Int := doe - (365 * yoe + Int.fdiv yoe 4 - Int.fdiv yoe 100)
  let mp : Int := Int.fdiv (5 * doy + 2) 153
  let d : Int := doy - Int.fdiv (153 * mp + 2) 5 + 1
  let m : Int := if mp < 10 then mp + 3 else mp - 9
  (if m ≤ 2 then y + 1 else y, m, d)

/-- Normalise a `(year, month)` pair with the month possibly outside `1..12`
into the canonical pair with month in `1..12` (ECMAScript month overflow:
`setMonth(13)` rolls into the next year, `setMonth(-1)` into the previous). -/
def normYM (y m : Int) : Int × Int :=
  (y + Int.fdiv (m - 1) 12, Int.emod (m - 1) 12 + 1)

/-- `setMonth(getMonth() + delta)` on a midnight date given as an epoch day:
decompose into civil fields, shift the month (normalising into the year), and
recompose keeping the day-of-month — overflowing days roll into the following
month, as in the engine. -/
def monthAddDay (z delta : Int) : Int :=
  let c := civilFromDay z
  let ym := normYM c.1 (c.2.1 + delta)
  dayFromCivil ym.1 ym.2 c.2.2

/-- `setFullYear(getFullYear() + delta)` on a midnight date given as an epoch
day: shift the year keeping month and day-of-month (Feb 29 in a non-leap
target year rolls into Mar 1, by the same linear-in-day recomposition). -/
def yearAddDay (z delta : Int) : Int :=
  let c := civilFromDay z
  dayFromCivil (c.1 + delta) c.2.1 c.2.2

/-- `setMonth(getMonth() + delta)` on an arbitrary instant (milliseconds):
the date part is shifted, the time of day is kept. -/
def monthAddMs (t delta : Int) : Int :=
  let z := Int.fdiv t msPerDay
  monthAddDay z delta * msPerDay + (t - z * msPerDay)

/-- `setFullYear(getFullYear() + delta)` on an arbitrary instant
(milliseconds): the date part is shifted, the time of day is kept. -/
def yearAddMs (t delta : Int) : Int :=
  let z := Int.fdiv t msPerDay
  yearAddDay z delta * msPerDay + (t - z * msPerDay)

/-- Two-digit zero padding, as `String(n).padStart(2, '0')`. -/
def pad2 (n : Int) : String :=
  if 0 ≤ n ∧ n < 10 then "0" ++ toString n else toString n

/-- `toYYYYMMDD` (src/components/CalendarView.tsx): format a midnight date
(epoch day) as `YYYY-MM-DD` from its civil fields. -/
def toYYYYMMDD (z : Int) : String :=
  let c := civilFromDay z
  toString c.1 ++ "-" ++ pad2 c.2.1 ++ "-" ++ pad2 c.2.2

/-- Alert lead-time unit (`AppEventAlert.unit`, src/types.ts). -/
inductive AlertUnit
  | minutes
  | hours
  | days
  | weeks
  | months
  | years
deriving DecidableEq, Repr

/-- An alert rule attached to an event (`AppEventAlert`, src/types.ts);
`value` is a non-negative integer lead amount. -/
structure AppEventAlert where
  id : String
  value : Nat
  unit : AlertUnit
deriving DecidableEq, Repr

/-- Repeat-rule frequency (`EventRepeat.frequency`, src/types.ts). -/
inductive Frequency
  | daily
  | weekly
  | monthly
  | yearly
deriving DecidableEq, Repr

/-- A repeat rule (`EventRepeat`, src/types.ts). -/
structure EventRepeat where
  frequency : Frequency
  interval : Int
deriving DecidableEq, Repr

/-- An event definition (`AppEvent`, src/types.ts). `date` and `startTime`
are the parse results of the stored strings (see the module docstring);
`alerts = []` also covers an absent `alerts` array, `isCompleted = false` an
absent flag. `repeatRule` embeds the source field `repeat` (a keyword). -/
structure AppEvent where
  id : String
  calendarId : String
  title : String
  date : Option Int
  startTime : Option Int
  description : String
  alerts : List AppEventAlert
  isCompleted : Bool
  isAllDay : Bool
  repeatRule : Option EventRepeat
deriving DecidableEq, Repr

/-- One step of the expansion cursor (`switch (repeatRule.frequency)` in
`expandRecurringEvents`), on midnight dates as epoch days: `setDate` steps are
plain day addition, `setMonth`/`setFullYear` steps are calendar-field
arithmetic. -/
def advanceDay (rule : EventRepeat) (z : Int) : Int :=
  match rule.frequency with
  | .daily => z + rule.interval
  | .weekly => z + rule.interval * 7
  | .monthly => monthAddDay z rule.interval
  | .yearly => yearAddDay z rule.interval

/-- The `while (cursorDate <= viewEnd)` loop of `expandRecurringEvents`,
emitting the cursor dates that lie in the window. The loop in the source is
bounded only by the window; its body strictly advances the cursor whenever
`interval ≥ 1` (every step adds at least one day), so on that domain the
recursion below, fuelled by the remaining window length, computes exactly the
loop's output: the fuel `(viewEnd + 1 - cursor).toNat` dominates the number of
remaining iterations because each iteration moves the cursor by at least one
day while consuming one unit of fuel. -/
def expandGo (adv : Int → Int) (viewStart viewEnd : Int) :
    Nat → Int → List Int
  | 0, _ => []
  | fuel + 1, cursor =>
    if cursor ≤ viewEnd then
      (if viewStart ≤ cursor then [cursor] else []) ++
        expandGo adv viewStart viewEnd fuel (adv cursor)
    else []

/-- The cursor loop of `expandRecurringEvents`, started with enough fuel for
its window. -/
def expandLoop (adv : Int → Int) (viewStart viewEnd cursor : Int) : List Int :=
  expandGo adv viewStart viewEnd (viewEnd + 1 - cursor).toNat cursor

/-- Expansion of a single event (`baseEvents.forEach` body of
`expandRecurringEvents`, src/components/CalendarView.tsx lines 28-64):
a non-recurring event is included as-is iff its anchor midnight lies in the
window; a recurring event contributes one clone per in-window cursor date,
with `date` replaced by the cursor's date and `id` rewritten to the composite
occurrence id. An unparsable anchor (`date = none`) produces nothing: every
comparison against an Invalid Date is false, so neither branch emits. -/
def expandEvent (e : AppEvent) (viewStart viewEnd : Int) : List AppEvent :=
  match e.repeatRule with
  | none =>
    match e.date with
    | none => []
    | some z => if viewStart ≤ z ∧ z ≤ viewEnd then [e] else []
  | some rule =>
    match e.date with
    | none => []
    | some z =>
      (expandLoop (advanceDay rule) viewStart viewEnd z).map fun c =>
        { e with date := some c, id := e.id ++ "_" ++ toYYYYMMDD c }

/-- `expandRecurringEvents` (src/components/CalendarView.tsx): expand every
event of the list over the window `[viewStart, viewEnd]` (inclusive epoch
days) and concatenate the occurrences in input order. -/
def expandRecurringEvents (baseEvents : List AppEvent)
    (viewStart viewEnd : Int) : List AppEvent :=
  baseEvents.flatMap fun e => expandEvent e viewStart viewEnd

/-- `new Date(date + 'T' + startTime)` in `checkEventsForNotifications`
(src/sw.js line 45): the event's start instant in milliseconds, `none` when
either the date or the start-time string fails to parse (the combined string
is then an Invalid Date and the `isNaN` guard skips the event). -/
def eventInstant (e : AppEvent) : Option Int :=
  match e.date, e.startTime with
  | some z, some tod => some (z * msPerDay + tod * msPerMinute)
  | _, _ => none

/-- The `switch (alert.unit)` of `checkEventsForNotifications` (src/sw.js
lines 50-57): the notification instant obtained from the event's start
instant by subtracting the alert's lead. Minutes and hours are fixed-duration
subtraction; days and weeks subtract whole days (`setDate` is linear in the
day number); months and years are calendar-field subtraction keeping the time
of day. -/
def notificationInstant (t : Int) (a : AppEventAlert) : Int :=
  match a.unit with
  | .minutes => t - a.value * msPerMinute
  | .hours => t - a.value * msPerHour
  | .days => t - a.value * msPerDay
  | .weeks => t - (a.value * 7) * msPerDay
  | .months => monthAddMs t (-(a.value : Int))
  | .years => yearAddMs t (-(a.value : Int))

/-- The due test of src/sw.js lines 60-62: the alert is due at `now` iff
`0 ≤ now - notificationTime < 60000`. -/
def alertDue (t : Int) (a : AppEventAlert) (now : Int) : Bool :=
  let timeDifference := now - notificationInstant t a
  0 ≤ timeDifference ∧ timeDifference < 60000

/-- The unit labels used in the notification body (src/sw.js line 68). -/
def unitLabel : AlertUnit → String
  | .minutes => "minuto(s)"
  | .hours => "hora(s)"
  | .days => "dia(s)"
  | .weeks => "semana(s)"
  | .months => "mês(es)"
  | .years => "ano(s)"

/-- The notification body (src/sw.js lines 64-70): a `value = 0` alert says
the event is starting now; otherwise the body names the lead amount. -/
def alertBody (title : String) (timeStr : String) (a : AppEventAlert) :
    String :=
  if a.value = 0 then
    title ++ " está começando agora (" ++ timeStr ++ ")."
  else
    title ++ " em " ++ toString a.value ++ " " ++ unitLabel a.unit ++
      " (às " ++ timeStr ++ ")."

/-- A delivered (shown) notification: the arguments of
`self.registration.showNotification` in src/sw.js lines 73-83, with the
`data` payload (`eventId`, `snoozeCount`) inlined. -/
structure FiredNotif where
  title : String
  body : String
  tag : String
  eventId : String
  snoozeCount : Nat
deriving DecidableEq, Repr

/-- The per-event body of `checkEventsForNotifications` (src/sw.js lines
38-87): skip the event when it has no alerts or is completed; skip it when
`date + 'T' + startTime` does not parse; otherwise fire one notification per
due alert, tagged `eventId-alertId`, with `snoozeCount` 0. Note that the
skip condition never consults `isAllDay`. -/
def checkEvent (e : AppEvent) (nowTimestamp : Int) : List FiredNotif :=
  if e.alerts.isEmpty || e.isCompleted then []
  else
    match eventInstant e with
    | none => []
    | some t =>
      e.alerts.filterMap fun a =>
        if alertDue t a nowTimestamp then
          some
            { title := "Agenda: Lembrete"
              body :=
                alertBody e.title
                  (match e.startTime with
                   | some tod => pad2 (Int.fdiv tod 60) ++ ":" ++
                       pad2 (Int.emod tod 60)
                   | none => "") a
              tag := e.id ++ "-" ++ a.id
              eventId := e.id
              snoozeCount := 0 }
        else none

/-- One full evaluation pass of `checkEventsForNotifications` over the
synchronized list (`scheduledEvents.forEach`): the notifications shown, in
order. The per-event `try/catch` confines a failure to its own event, so the
pass is the concatenation of independent per-event results. -/
def checkEvents (events : List AppEvent) (nowTimestamp : Int) :
    List FiredNotif :=
  events.flatMap fun e => checkEvent e nowTimestamp

/-- The service worker's scheduler state (src/sw.js lines 21-22):
`scheduledEvents` is the last-synchronized list, `pending` the number of live
pending check timers (`notificationCheckTimeout` holds the only one). -/
structure SWState where
  scheduledEvents : List AppEvent
  pending : Nat
deriving Repr

/-- An external stimulus to the scheduler: a `SYNC_EVENTS` message carrying a
fresh list, or the 60-second timer elapsing. Each carries the wall-clock
`now` captured at the start of the resulting evaluation pass. -/
inductive SWAction
  | sync (events : List AppEvent) (now : Int)
  | timerFire (now : Int)
deriving Repr

/-- One scheduler transition, returning the new state and the log of
evaluation passes run (each pass recorded as the list it scanned and the
`now` it used). A `SYNC_EVENTS` message (src/sw.js lines 99-106) replaces
the stored list and synchronously runs `checkEventsForNotifications`, which
first clears any pending timer and finally re-arms one; a timer firing runs
the same function against the current stored list. A `timerFire` with no
pending timer cannot occur and is a no-op. -/
def step (s : SWState) : SWAction → SWState × List (List AppEvent × Int)
  | .sync events now =>
    ({ scheduledEvents := events, pending := 1 }, [(events, now)])
  | .timerFire now =>
    if s.pending = 0 then (s, [])
    else ({ s with pending := 1 }, [(s.scheduledEvents, now)])

/-- Run the scheduler over a sequence of stimuli, concatenating the logs of
evaluation passes. -/
def run (s : SWState) : List SWAction → SWState × List (List AppEvent × Int)
  | [] => (s, [])
  | a :: rest =>
    ((run (step s a).1 rest).1, (step s a).2 ++ (run (step s a).1 rest).2)

/-- Strip one leading `"(Adiado) "` before re-prefixing, as
`notification.body.replace(/^\(Adiado\) /, '')` (src/sw.js line 120). -/
def snoozeBody (body : String) : String :=
  "(Adiado) " ++ (if body.startsWith "(Adiado) " then body.drop 9 else body)

/-- The `snooze` branch of the `notificationclick` listener (src/sw.js lines
115-129): increment the snooze count; if it does not exceed 2, schedule a
replacement notification 5 minutes (300000 ms) later with the tag suffixed by
the count; otherwise schedule nothing. Returns the delay and the rescheduled
notification, or `none` when the cap drops the request. -/
def snoozeClick (n : FiredNotif) : Option (Int × FiredNotif) :=
  let snoozeCount := n.snoozeCount + 1
  if snoozeCount ≤ 2 then
    some (5 * 60 * 1000,
      { n with
          body := snoozeBody n.body
          tag := n.tag ++ "-snooze-" ++ toString snoozeCount
          snoozeCount := snoozeCount })
  else none

/-! ## Helper lemmas about the expansion loop -/

/-- Every date the cursor loop emits lies in the window. -/
theorem mem_expandGo {adv : Int → Int} {viewStart viewEnd : Int} :
    ∀ {fuel : Nat} {c x : Int}, x ∈ expandGo adv viewStart viewEnd fuel c →
      viewStart ≤ x ∧ x ≤ viewEnd := by
  intro fuel
  induction fuel with
  | zero =>
    intro c x h
    simp [expandGo] at h
  | succ n ih =>
    intro c x h
    rw [expandGo] at h
    split at h
    · rcases List.mem_append.1 h with h1 | h2
      · split at h1
        · rcases List.mem_singleton.1 h1 with rfl
          omega
        · simp at h1
      · exact ih h2
    · simp at h

/-- Closed form of the cursor loop for a one-day step, once the cursor is at
or past the window start: one emission per remaining day. -/
theorem expandGo_step_one_from {viewStart viewEnd : Int} :
    ∀ (fuel : Nat) (c : Int), (viewEnd + 1 - c).toNat ≤ fuel →
      viewStart ≤ c →
      expandGo (fun z => z + 1) viewStart viewEnd fuel c =
        (List.range (viewEnd + 1 - c).toNat).map fun (k : Nat) => c + (k : Int) := by
  intro fuel
  induction fuel with
  | zero =>
    intro c hfuel _
    rw [Nat.le_zero.1 hfuel]
    simp [expandGo]
  | succ n ih =>
    intro c hfuel hc
    rw [expandGo]
    by_cases hE : c ≤ viewEnd
    · rw [if_pos hE, if_pos hc,
        ih (c + 1) (by omega) (by omega)]
      have hsucc : (viewEnd + 1 - c).toNat =
          (viewEnd + 1 - (c + 1)).toNat + 1 := by
        omega
      have hfun : (fun k : Nat => c + ((k + 1 : Nat) : Int)) =
          fun k : Nat => (c + 1) + (k : Int) := by
        funext k
        push_cast
        ring
      rw [hsucc, List.range_succ_eq_map, List.map_cons, List.map_map]
      simp only [Nat.cast_zero, add_zero, List.singleton_append,
        Function.comp_def, Nat.succ_eq_add_one, hfun]
    · rw [if_neg hE]
      have h0 : (viewEnd + 1 - c).toNat = 0 := by omega
      rw [h0]
      simp

/-- Closed form of the cursor loop for a one-day step started at or before
the window start: the cursor catches up without emitting and then emits one
date for every day of the window. -/
theorem expandGo_step_one_catchup {viewStart viewEnd : Int} :
    ∀ (fuel : Nat) (c : Int), (viewEnd + 1 - c).toNat ≤ fuel →
      c ≤ viewStart →
      expandGo (fun z => z + 1) viewStart viewEnd fuel c =
        (List.range (viewEnd + 1 - viewStart).toNat).map fun (k : Nat) =>
          viewStart + (k : Int) := by
  intro fuel
  induction fuel with
  | zero =>
    intro c hfuel hc
    have h0 : (viewEnd + 1 - viewStart).toNat = 0 := by omega
    rw [h0]
    simp [expandGo]
  | succ n ih =>
    intro c hfuel hc
    by_cases hS : viewStart ≤ c
    · have hcS : c = viewStart := le_antisymm hc hS
      subst hcS
      exact expandGo_step_one_from (n + 1) c hfuel le_rfl
    · rw [expandGo]
      by_cases hE : c ≤ viewEnd
      · rw [if_pos hE, if_neg hS, ih (c + 1) (by omega) (by omega)]
        simp
      · rw [if_neg hE]
        have h0 : (viewEnd + 1 - viewStart).toNat = 0 := by omega
        rw [h0]
        simp

/-- The date of any occurrence that `expandEvent` produces lies in the
window, and is always present. -/
theorem mem_expandEvent_date {e occ : AppEvent} {viewStart viewEnd : Int}
    (h : occ ∈ expandEvent e viewStart viewEnd) :
    ∃ d, occ.date = some d ∧ viewStart ≤ d ∧ d ≤ viewEnd := by
  unfold expandEvent at h
  split at h
  · split at h
    · simp at h
    · rename_i z hz
      split at h
      · rename_i hw
        rcases List.mem_singleton.1 h with rfl
        exact ⟨z, hz, hw.1, hw.2⟩
      · simp at h
  · split at h
    · simp at h
    · rename_i z hz
      rcases List.mem_map.1 h with ⟨c, hc, rfl⟩
      rcases mem_expandGo hc with ⟨h1, h2⟩
      exact ⟨c, rfl, h1, h2⟩

/-! ## C2: window containment -/

/-- C2: for every input event list and every window with
`windowStart ≤ windowEnd`, every occurrence produced by the expander has its
date within the window, both for non-recurring events included as-is and for
generated recurring occurrences. -/
theorem C2_window_containment (events : List AppEvent)
    (viewStart viewEnd : Int) (_hw : viewStart ≤ viewEnd) :
    ∀ occ ∈ expandRecurringEvents events viewStart viewEnd,
      ∃ d, occ.date = some d ∧ viewStart ≤ d ∧ d ≤ viewEnd := by
  intro occ hocc
  rcases List.mem_flatMap.1 hocc with ⟨e, _, hmem⟩
  exact mem_expandEvent_date hmem

/-- Witness for C2 at a concrete window and a concrete recurring event. -/
theorem C2_window_containment_witness :
    (19723 : Int) ≤ 19728 ∧
      ∀ occ ∈ expandRecurringEvents
          [{ id := "w2", calendarId := "c", title := "t",
             date := some 19720, startTime := some 540, description := "",
             alerts := [], isCompleted := false, isAllDay := false,
             repeatRule := some ⟨.daily, 2⟩ }] 19723 19728,
        ∃ d, occ.date = some d ∧ 19723 ≤ d ∧ d ≤ 19728 :=
  ⟨by decide, C2_window_containment _ 19723 19728 (by decide)⟩

/-! ## C4: monthly rollover scenario -/

/-- The event of the monthly-rollover scenario: anchored 2024-01-31 with
`repeat = {frequency: monthly, interval: 1}`. -/
def monthlyRolloverEvent : AppEvent :=
  { id := "mr", calendarId := "c", title := "Mensal",
    date := some (dayFromCivil 2024 1 31), startTime := some 540,
    description := "", alerts := [], isCompleted := false, isAllDay := false,
    repeatRule := some ⟨.monthly, 1⟩ }

/-- C4: expanding the event anchored 2024-01-31 with a monthly interval-1
rule over the window 2024-01-01 .. 2024-04-30 yields exactly the occurrences
2024-01-31, 2024-03-02 (native day-overflow rollover of "31 Jan + 1 month" in
a leap year) and 2024-04-02, and no others. -/
theorem C4_monthly_rollover :
    (expandEvent monthlyRolloverEvent (dayFromCivil 2024 1 1)
        (dayFromCivil 2024 4 30)).map (fun occ => occ.date) =
      [some (dayFromCivil 2024 1 31), some (dayFromCivil 2024 3 2),
        some (dayFromCivil 2024 4 2)] := by
  decide

/-! ## C7: daily coverage -/

/-- C7: a daily event with interval 1 anchored at day `d0`, expanded over a
window of `N ≥ 1` consecutive days starting at `s0 ≥ d0`, yields exactly `N`
occurrences, one per day of the window, with strictly increasing dates. -/
theorem C7_daily_coverage (e : AppEvent) (d0 s0 : Int) (N : Nat)
    (hrep : e.repeatRule = some ⟨.daily, 1⟩) (hdate : e.date = some d0)
    (hanchor : d0 ≤ s0) (hN : 1 ≤ N) :
    (expandEvent e s0 (s0 + N - 1)).filterMap AppEvent.date =
        (List.range N).map (fun (k : Nat) => s0 + (k : Int)) ∧
      (expandEvent e s0 (s0 + N - 1)).length = N ∧
      ((expandEvent e s0 (s0 + N - 1)).filterMap AppEvent.date).Pairwise
        (· < ·) := by
  have hadv : advanceDay ⟨.daily, 1⟩ = fun z => z + 1 := rfl
  have hloop :
      expandLoop (advanceDay ⟨.daily, 1⟩) s0 (s0 + N - 1) d0 =
        (List.range N).map fun (k : Nat) => s0 + (k : Int) := by
    rw [expandLoop, hadv,
      expandGo_step_one_catchup _ d0 le_rfl hanchor]
    have hNN : ((s0 + N - 1) + 1 - s0).toNat = N := by omega
    rw [hNN]
  have hexp :
      expandEvent e s0 (s0 + N - 1) =
        (expandLoop (advanceDay ⟨.daily, 1⟩) s0 (s0 + N - 1) d0).map fun c =>
          { e with date := some c, id := e.id ++ "_" ++ toYYYYMMDD c } := by
    unfold expandEvent
    rw [hrep, hdate]
  have hdates :
      (expandEvent e s0 (s0 + N - 1)).filterMap AppEvent.date =
        (List.range N).map fun (k : Nat) => s0 + (k : Int) := by
    rw [hexp, hloop, List.filterMap_map]
    have hcomp : (AppEvent.date ∘ fun c : Int =>
        { e with date := some c, id := e.id ++ "_" ++ toYYYYMMDD c }) =
          some := rfl
    rw [hcomp, List.filterMap_some]
  refine ⟨hdates, ?_, ?_⟩
  · rw [hexp, hloop]
    simp
  · rw [hdates]
    refine List.Pairwise.map _ (fun a b h => ?_)
      (List.pairwise_lt_range N)
    omega

/-- Witness for C7: a daily event anchored 2024-01-01 expanded over the
five-day window 2024-01-03 .. 2024-01-07. -/
theorem C7_daily_coverage_witness :
    (19723 : Int) ≤ 19725 ∧ 1 ≤ 5 ∧
      ((expandEvent
          { id := "w7", calendarId := "c", title := "t", date := some 19723,
            startTime := some 540, description := "", alerts := [],
            isCompleted := false, isAllDay := false,
            repeatRule := some ⟨.daily, 1⟩ } 19725 (19725 + (5 : Nat) - 1)).filterMap
            AppEvent.date =
          (List.range 5).map (fun (k : Nat) => (19725 : Int) + (k : Int)) ∧
        (expandEvent
          { id := "w7", calendarId := "c", title := "t", date := some 19723,
            startTime := some 540, description := "", alerts := [],
            isCompleted := false, isAllDay := false,
            repeatRule := some ⟨.daily, 1⟩ } 19725 (19725 + (5 : Nat) - 1)).length = 5 ∧
        ((expandEvent
          { id := "w7", calendarId := "c", title := "t", date := some 19723,
            startTime := some 540, description := "", alerts := [],
            isCompleted := false, isAllDay := false,
            repeatRule := some ⟨.daily, 1⟩ } 19725 (19725 + (5 : Nat) - 1)).filterMap
            AppEvent.date).Pairwise (· < ·)) :=
  ⟨by decide, by decide,
    C7_daily_coverage _ 19723 19725 5 rfl rfl (by decide) (by decide)⟩

/-! ## C1: treatment of all-day events by the due-alert scan -/

/-- An all-day event exactly as the application stores one: the event form
saves `startTime: '00:00'` when `isAllDay` is set (EventModal, and the
`SYNC_EVENTS` effect forwards the full unfiltered list), with one
at-start alert. -/
def allDayEvent : AppEvent :=
  { id := "ev-allday", calendarId := "cal", title := "Dia inteiro",
    date := some (dayFromCivil 2024 5 20), startTime := some 0,
    description := "", alerts := [{ id := "a1", value := 0, unit := .minutes }],
    isCompleted := false, isAllDay := true, repeatRule := none }

/-- Counterexample to C1 as stated: at midnight of its anchor day, the
per-tick scan does fire a notification for an all-day event — the skip
condition of `checkEventsForNotifications` never consults `isAllDay`. -/
theorem C1_counterexample :
    checkEvent allDayEvent (dayFromCivil 2024 5 20 * msPerDay) ≠ [] := by
  decide

/-- C1 (amended): the per-tick due-alert scan is entirely independent of the
`isAllDay` flag — an event is skipped only for having no alerts, being
completed, or an unparsable date/start time, never for being all-day. -/
theorem C1_amended_allday_not_skipped (e : AppEvent) (b : Bool) (now : Int) :
    checkEvent { e with isAllDay := b } now = checkEvent e now := rfl

/-! ## C3: the half-open 60-second due window -/

/-- C3: for a non-completed event whose occurrence starts at instant `t` and
which carries exactly the minute-unit alert `a` with value `v` (lead
`L = v` minutes), the scan fires at evaluation time `now` iff
`0 ≤ now - (t - L) < 60000` milliseconds. -/
theorem C3_due_window (e : AppEvent) (a : AppEventAlert) (v : Nat)
    (t now : Int) (hc : e.isCompleted = false) (halerts : e.alerts = [a])
    (hunit : a.unit = .minutes) (hval : a.value = v)
    (ht : eventInstant e = some t) :
    checkEvent e now ≠ [] ↔
      0 ≤ now - (t - v * msPerMinute) ∧
        now - (t - v * msPerMinute) < 60000 := by
  unfold checkEvent
  rw [halerts, ht, hc]
  have hdue : alertDue t a now = true ↔
      0 ≤ now - (t - v * msPerMinute) ∧
        now - (t - v * msPerMinute) < 60000 := by
    unfold alertDue notificationInstant
    rw [hunit, hval]
    exact decide_eq_true_iff
  simp only [List.isEmpty_cons, Bool.false_eq_true, Bool.or_self,
    if_false, List.filterMap_cons, List.filterMap_nil]
  by_cases hwin : 0 ≤ now - (t - v * msPerMinute) ∧
      now - (t - v * msPerMinute) < 60000
  · rw [if_pos (hdue.mpr hwin)]
    simpa using hwin
  · rw [if_neg fun hh => hwin (hdue.mp hh)]
    simpa using hwin

/-- A plain timed event used to exercise the due-window boundaries: anchored
2024-01-01 at 10:00 with a 15-minute alert, so its notification instant is
`T0 = 1704102300000` and its start `T = 1704103200000`. -/
def timedEvent : AppEvent :=
  { id := "ev-timed", calendarId := "cal", title := "Reunião",
    date := some 19723, startTime := some 600, description := "",
    alerts := [{ id := "a15", value := 15, unit := .minutes }],
    isCompleted := false, isAllDay := false, repeatRule := none }

/-- Witness for C3 at the four boundary instants: due at `T - 15min + 0ms`
and `T - 15min + 59999ms`, not due at `T - 15min - 1ms` and
`T - 15min + 60000ms`. -/
theorem C3_due_window_witness :
    (checkEvent timedEvent 1704102300000 ≠ [] ∧
        checkEvent timedEvent 1704102359999 ≠ []) ∧
      checkEvent timedEvent 1704102299999 = [] ∧
        checkEvent timedEvent 1704102360000 = [] := by
  have h0 := C3_due_window timedEvent ⟨"a15", 15, .minutes⟩ 15
    1704103200000 1704102300000 rfl rfl rfl rfl rfl
  have h1 := C3_due_window timedEvent ⟨"a15", 15, .minutes⟩ 15
    1704103200000 1704102359999 rfl rfl rfl rfl rfl
  have h2 := C3_due_window timedEvent ⟨"a15", 15, .minutes⟩ 15
    1704103200000 1704102299999 rfl rfl rfl rfl rfl
  have h3 := C3_due_window timedEvent ⟨"a15", 15, .minutes⟩ 15
    1704103200000 1704102360000 rfl rfl rfl rfl rfl
  refine ⟨⟨h0.mpr (by decide), h1.mpr (by decide)⟩, ?_, ?_⟩
  · by_contra hne
    exact absurd (h2.mp hne) (by decide)
  · by_contra hne
    exact absurd (h3.mp hne) (by decide)

/-! ## C8: completed events are suppressed -/

/-- C8: an event with `isCompleted = true` contributes no fired alert in an
evaluation tick, whatever the current time. -/
theorem C8_completed_suppressed (e : AppEvent) (now : Int)
    (h : e.isCompleted = true) : checkEvent e now = [] := by
  unfold checkEvent
  rw [h]
  simp

/-- The event of `C3_due_window_witness` but marked completed. -/
def completedEvent : AppEvent :=
  { timedEvent with id := "ev-done", isCompleted := true }

/-- Witness for C8: a completed event whose 15-minute alert instant falls
exactly inside the current due window still fires nothing. -/
theorem C8_completed_suppressed_witness :
    completedEvent.isCompleted = true ∧
      checkEvent completedEvent 1704102300000 = [] :=
  ⟨rfl, C8_completed_suppressed completedEvent 1704102300000 rfl⟩

/-! ## C9: unparsable dates produce nothing and block nothing -/

/-- C9: an event whose anchor date is unparsable produces no occurrence in
the expander and no fired alert in the scan; an event whose date/start-time
combination is unparsable fires no alert; and in both pipelines the
surrounding events of the same list are processed exactly as if the bad
record were absent. -/
theorem C9_unparsable_isolated (e : AppEvent)
    (events1 events2 : List AppEvent) (viewStart viewEnd now : Int)
    (h : e.date = none) :
    expandEvent e viewStart viewEnd = [] ∧
      checkEvent e now = [] ∧
      (∀ e', eventInstant e' = none → checkEvent e' now = []) ∧
      expandRecurringEvents (events1 ++ e :: events2) viewStart viewEnd =
        expandRecurringEvents events1 viewStart viewEnd ++
          expandRecurringEvents events2 viewStart viewEnd ∧
      checkEvents (events1 ++ e :: events2) now =
        checkEvents events1 now ++ checkEvents events2 now := by
  have hinstant : eventInstant e = none := by
    unfold eventInstant
    rw [h]
  have hcheck : ∀ e' : AppEvent, eventInstant e' = none →
      checkEvent e' now = [] := by
    intro e' he'
    unfold checkEvent
    rw [he']
    split <;> rfl
  have hexp : expandEvent e viewStart viewEnd = [] := by
    unfold expandEvent
    rw [h]
    split <;> rfl
  refine ⟨hexp, hcheck e hinstant, hcheck, ?_, ?_⟩
  · unfold expandRecurringEvents
    rw [List.flatMap_append, List.flatMap_cons, hexp]
    simp
  · unfold checkEvents
    rw [List.flatMap_append, List.flatMap_cons, hcheck e hinstant]
    simp

/-- An event whose stored date string does not parse. -/
def badDateEvent : AppEvent :=
  { timedEvent with id := "ev-bad", date := none }

/-- Witness for C9: the unparsable event vanishes from both pipelines while
its neighbours are processed normally. -/
theorem C9_unparsable_isolated_witness :
    badDateEvent.date = none ∧
      (expandEvent badDateEvent 19723 19729 = [] ∧
        checkEvent badDateEvent 1704102300000 = [] ∧
        (∀ e', eventInstant e' = none →
          checkEvent e' 1704102300000 = []) ∧
        expandRecurringEvents [timedEvent, badDateEvent, allDayEvent]
            19723 19729 =
          expandRecurringEvents [timedEvent] 19723 19729 ++
            expandRecurringEvents [allDayEvent] 19723 19729 ∧
        checkEvents [timedEvent, badDateEvent, allDayEvent] 1704102300000 =
          checkEvents [timedEvent] 1704102300000 ++
            checkEvents [allDayEvent] 1704102300000) :=
  ⟨rfl, C9_unparsable_isolated badDateEvent [timedEvent] [allDayEvent]
    19723 19729 1704102300000 rfl⟩

/-! ## C10: alerts are computed from the anchor only -/

/-- C10: the per-tick scan never consults the repeat rule — its output is
unchanged under any replacement of `repeatRule` — and every notification it
fires is justified by the 60-second window around a notification instant
derived from the event's stored anchor date and start time alone, so a
recurring event's alerts can fire only around its anchor occurrence. -/
theorem C10_anchor_only (e : AppEvent) (now : Int) :
    (∀ r, checkEvent { e with repeatRule := r } now = checkEvent e now) ∧
      ∀ n ∈ checkEvent e now, ∃ t, eventInstant e = some t ∧
        ∃ a ∈ e.alerts, 0 ≤ now - notificationInstant t a ∧
          now - notificationInstant t a < 60000 := by
  refine ⟨fun r => rfl, fun n hn => ?_⟩
  unfold checkEvent at hn
  split at hn
  · simp at hn
  · split at hn
    · simp at hn
    · rename_i t ht
      rcases List.mem_filterMap.1 hn with ⟨a, ha, hfire⟩
      refine ⟨t, ht, a, ha, ?_⟩
      by_cases hdue : alertDue t a now = true
      · unfold alertDue at hdue
        simpa using of_decide_eq_true hdue
      · rw [if_neg (by simpa using hdue)] at hfire
        cases hfire

/-- A daily-recurring event anchored 2024-01-01 at 10:00 with a 15-minute
alert. -/
def recurringDailyEvent : AppEvent :=
  { timedEvent with id := "ev-rec", repeatRule := some ⟨.daily, 1⟩ }

/-- Witness for C10 at a concrete recurring event: the instantiated theorem,
plus the concrete consequences — the alert fires in the minute before the
anchor occurrence but not in the minute before the next day's occurrence
(2024-01-02 09:45), because the scan never expands the recurrence. -/
theorem C10_anchor_only_witness :
    ((∀ r, checkEvent { recurringDailyEvent with repeatRule := r }
          1704102300000 = checkEvent recurringDailyEvent 1704102300000) ∧
        ∀ n ∈ checkEvent recurringDailyEvent 1704102300000,
          ∃ t, eventInstant recurringDailyEvent = some t ∧
            ∃ a ∈ recurringDailyEvent.alerts,
              0 ≤ 1704102300000 - notificationInstant t a ∧
                1704102300000 - notificationInstant t a < 60000) ∧
      checkEvent recurringDailyEvent 1704102300000 ≠ [] ∧
        checkEvent recurringDailyEvent (1704102300000 + 86400000) = [] :=
  ⟨C10_anchor_only recurringDailyEvent 1704102300000,
    by decide, by decide⟩

/-! ## C5: list replacement supersedes pending ticks -/

/-- Over a stretch of stimuli containing no `SYNC_EVENTS` message, the stored
list never changes and every evaluation pass scans exactly that stored
list. -/
theorem run_ticks_fixed_list :
    ∀ (ticks : List SWAction),
      (∀ a ∈ ticks, ∀ l n, a ≠ SWAction.sync l n) →
      ∀ s : SWState,
        (run s ticks).1.scheduledEvents = s.scheduledEvents ∧
          ∀ p ∈ (run s ticks).2, p.1 = s.scheduledEvents := by
  intro ticks
  induction ticks with
  | nil =>
    intro _ s
    exact ⟨rfl, by simp [run]⟩
  | cons a rest ih =>
    intro hs s
    have hrest : ∀ a' ∈ rest, ∀ l n, a' ≠ SWAction.sync l n := by
      intro a' ha'
      exact hs a' (List.mem_cons_of_mem a ha')
    cases a with
    | sync l n => exact absurd rfl (hs _ (List.mem_cons_self _ _) l n)
    | timerFire n =>
      by_cases hp : s.pending = 0
      · rcases ih hrest s with ⟨h1, h2⟩
        simp only [run, step, if_pos hp]
        exact ⟨h1, by simpa using h2⟩
      · rcases ih hrest { s with pending := 1 } with ⟨h1, h2⟩
        simp only [run, step, if_neg hp]
        refine ⟨h1, ?_⟩
        intro p hp'
        simp only [List.cons_append, List.nil_append, List.mem_cons] at hp'
        rcases hp' with rfl | hp'
        · rfl
        · exact h2 p hp'

/-- C5: if the scheduler receives list `A` and then immediately list `B`
before any tick fires, every evaluation pass from `B`'s arrival on scans `B`
(the pass run synchronously on `A`'s arrival happened before `B` arrived,
and no tick ever evaluates `A` afterwards), and a transition from any state
with at most one pending timer leaves at most one pending timer. -/
theorem C5_list_replacement (s : SWState) (A B : List AppEvent)
    (nA nB : Int) (ticks : List SWAction)
    (hticks : ∀ a ∈ ticks, ∀ l n, a ≠ SWAction.sync l n) :
    ((run s (SWAction.sync A nA :: SWAction.sync B nB :: ticks)).2 =
        (A, nA) :: (B, nB) ::
          (run { scheduledEvents := B, pending := 1 } ticks).2 ∧
      ∀ p ∈ (run { scheduledEvents := B, pending := 1 } ticks).2,
        p.1 = B) ∧
      ∀ (st : SWState) (a : SWAction), st.pending ≤ 1 →
        (step st a).1.pending ≤ 1 := by
  refine ⟨⟨?_, (run_ticks_fixed_list ticks hticks _).2⟩, ?_⟩
  · simp [run, step]
  · intro st a hle
    cases a with
    | sync l n => simp [step]
    | timerFire n =>
      simp only [step]
      split
      · exact hle
      · exact le_refl 1

/-- Witness for C5: two syncs followed by two timer firings — both ticks
evaluate the second list. -/
theorem C5_list_replacement_witness :
    ((run ⟨[], 0⟩
          (SWAction.sync [timedEvent] 1 :: SWAction.sync [allDayEvent] 2 ::
            [SWAction.timerFire 3, SWAction.timerFire 4])).2 =
        ([timedEvent], 1) :: ([allDayEvent], 2) ::
          (run { scheduledEvents := [allDayEvent], pending := 1 }
            [SWAction.timerFire 3, SWAction.timerFire 4]).2 ∧
      ∀ p ∈ (run { scheduledEvents := [allDayEvent], pending := 1 }
          [SWAction.timerFire 3, SWAction.timerFire 4]).2,
        p.1 = [allDayEvent]) ∧
      ∀ (st : SWState) (a : SWAction), st.pending ≤ 1 →
        (step st a).1.pending ≤ 1 :=
  C5_list_replacement ⟨[], 0⟩ [timedEvent] [allDayEvent] 1 2
    [SWAction.timerFire 3, SWAction.timerFire 4]
    (by
      intro a ha l n
      simp only [List.mem_cons, List.not_mem_nil, or_false,
        List.mem_singleton] at ha
      rcases ha with rfl | rfl <;> simp)

/-! ## C6: snooze rescheduling and the two-snooze cap -/

/-- C6: every notification fired by the scan starts with `snoozeCount = 0`;
a snooze action schedules a replacement exactly when the original firing has
been snoozed fewer than 2 times, and when it does, the new notification comes
5 minutes (300000 ms) later with the count incremented and the tag suffixed
with it; starting from a fresh firing, two snoozes succeed and the third
schedules nothing. -/
theorem C6_snooze_cap (n : FiredNotif) :
    (∀ (e : AppEvent) (now : Int) (f : FiredNotif),
        f ∈ checkEvent e now → f.snoozeCount = 0) ∧
      (snoozeClick n = none ↔ 2 ≤ n.snoozeCount) ∧
      (∀ d m, snoozeClick n = some (d, m) →
        d = 300000 ∧ m.snoozeCount = n.snoozeCount + 1 ∧
          m.tag = n.tag ++ "-snooze-" ++ toString (n.snoozeCount + 1)) ∧
      (n.snoozeCount = 0 →
        ∃ n1 n2, snoozeClick n = some (300000, n1) ∧
          n1.snoozeCount = 1 ∧ n1.tag = n.tag ++ "-snooze-" ++ toString 1 ∧
          snoozeClick n1 = some (300000, n2) ∧
          n2.snoozeCount = 2 ∧ n2.tag = n1.tag ++ "-snooze-" ++ toString 2 ∧
          snoozeClick n2 = none) := by
  refine ⟨?_, ?_, ?_, ?_⟩
  · intro e now f hf
    unfold checkEvent at hf
    split at hf
    · simp at hf
    · split at hf
      · simp at hf
      · rcases List.mem_filterMap.1 hf with ⟨a, _, hfire⟩
        split at hfire
        · cases hfire
          rfl
        · cases hfire
  · unfold snoozeClick
    by_cases hcap : n.snoozeCount + 1 ≤ 2
    · rw [if_pos hcap]
      simp
      omega
    · rw [if_neg hcap]
      simp
      omega
  · intro d m hdm
    simp only [snoozeClick] at hdm
    split at hdm
    · cases hdm
      exact ⟨rfl, rfl, rfl⟩
    · cases hdm
  · intro h0
    rcases n with ⟨ti, bo, ta, ev, sc⟩
    change sc = 0 at h0
    subst h0
    exact ⟨_, _, rfl, rfl, rfl, rfl, rfl, rfl, rfl⟩

/-- A freshly fired notification, as delivered by the scan. -/
def freshNotif : FiredNotif :=
  { title := "Agenda: Lembrete", body := "Reunião em 15 minuto(s) (às 10:00).",
    tag := "ev-timed-a15", eventId := "ev-timed", snoozeCount := 0 }

/-- Witness for C6 at a fresh concrete notification. -/
theorem C6_snooze_cap_witness :
    freshNotif.snoozeCount = 0 ∧
      ((∀ (e : AppEvent) (now : Int) (f : FiredNotif),
          f ∈ checkEvent e now → f.snoozeCount = 0) ∧
        (snoozeClick freshNotif = none ↔ 2 ≤ freshNotif.snoozeCount) ∧
        (∀ d m, snoozeClick freshNotif = some (d, m) →
          d = 300000 ∧ m.snoozeCount = freshNotif.snoozeCount + 1 ∧
            m.tag = freshNotif.tag ++ "-snooze-" ++
              toString (freshNotif.snoozeCount + 1)) ∧
        (freshNotif.snoozeCount = 0 →
          ∃ n1 n2, snoozeClick freshNotif = some (300000, n1) ∧
            n1.snoozeCount = 1 ∧
            n1.tag = freshNotif.tag ++ "-snooze-" ++ toString 1 ∧
            snoozeClick n1 = some (300000, n2) ∧
            n2.snoozeCount = 2 ∧
            n2.tag = n1.tag ++ "-snooze-" ++ toString 2 ∧
            snoozeClick n2 = none)) :=
  ⟨rfl, C6_snooze_cap freshNotif⟩

end Agenda
